import Mathlib

/-
Verification of the document-management backend (Django app `documents`).

Shallow embedding conventions:
* Python `str` is embedded as `List Char` (abbreviated `Str`); byte strings as
  `List Nat` (`Bytes`).
* The filesystem is an association list from paths to byte contents, with an
  idealised OS: `os.path.exists` is accurate, `os.remove` on an existing file
  succeeds (the `except OSError` branches of the source are thus unreachable
  in the model), and writes to a fresh path store exactly the written bytes.
* The relational store is a list of `Document` rows; `auto_now_add` timestamps
  and autoincrement ids are modelled by a clock and a counter in `SysState`.
* Fallible Python code (raise/except) is embedded with `Except`.
-/

deriving instance DecidableEq for Except

/-- Embedding of a Python `str` as a list of characters. -/
abbrev Str := List Char

/-- Embedding of file contents as a list of bytes. -/
abbrev Bytes := List Nat

/-- Filesystem: association list from path to file bytes. -/
abbrev FS := List (Str × Bytes)

/-- Look up the contents of the file stored at path `p` (models reading and
`os.path.exists`; `none` means no file at that path). -/
def fsLookup : FS → Str → Option Bytes
  | [], _ => none
  | (q, b) :: rest, p => if q = p then some b else fsLookup rest p

/-- Write bytes `b` at path `p` (models `open(path, "wb+")` plus the chunked
write loop of `DocumentStorageService.save_file`). -/
def fsWrite (fs : FS) (p : Str) (b : Bytes) : FS := (p, b) :: fs

/-- Remove every entry stored at path `p` (models a successful `os.remove`). -/
def fsRemove : FS → Str → FS
  | [], _ => []
  | (q, b) :: rest, p => if q = p then fsRemove rest p else (q, b) :: fsRemove rest p

/-- Lowercase one character (agrees with Python `str.lower` on ASCII, which is
all the source compares against: the literals ".pdf" and "application/pdf"). -/
def lowerStr (s : Str) : Str := s.map Char.toLower

/-- Boolean test that `suf` is a suffix of `s` (models Python `str.endswith`). -/
def strEndsWith (s suf : Str) : Bool := decide (s.drop (s.length - suf.length) = suf)

/-- The typed validation error raised by the validators
(`documents/exceptions.py: FileValidationError`); one constructor per distinct
`raise FileValidationError(...)` site used by the upload pipeline. -/
inductive FileValidationError where
  | emptyFilename
  | invalidPathChars
  | controlChars
  | filenameTooLong
  | extensionNotAllowed (ext : Str)
  | fileTooLarge (size : Nat)
  | mimeNotAllowed (ct : Str)
  | contentFileMissing
  | contentNotPdf
deriving DecidableEq, Repr

/-- Allowed file extensions (`DocumentValidator.ALLOWED_EXTENSIONS`). -/
def ALLOWED_EXTENSIONS : List Str := [(".pdf").data]

/-- Maximum file size in bytes (`DocumentValidator.MAX_FILE_SIZE`, 10 MiB). -/
def MAX_FILE_SIZE : Nat := 10 * 1024 * 1024

/-- Allowed MIME types (`DocumentValidator.ALLOWED_MIME_TYPES`). -/
def ALLOWED_MIME_TYPES : List Str := [("application/pdf").data]

/-- True when the string contains two consecutive dots (Python `".." in s`).
The safety check only needs the two-adjacent-dots case of substring search. -/
def hasDotDot : Str → Bool
  | '.' :: '.' :: _ => true
  | _ :: rest => hasDotDot rest
  | [] => false

/-- Model of `DocumentValidator.validate_filename_safety`: reject empty names,
path-traversal characters, control characters, and names over 255 chars. -/
def DocumentValidator.validate_filename_safety (filename : Str) : Except FileValidationError Unit :=
  if filename = [] then .error .emptyFilename
  else if hasDotDot filename ∨ filename.contains '/' ∨ filename.contains '\\' then
    .error .invalidPathChars
  else if filename.any (fun c => c.toNat < 32) then .error .controlChars
  else if filename.length > 255 then .error .filenameTooLong
  else .ok ()

/-- Extension part of `os.path.splitext` for separator-free names (the safety
check has already excluded `/` and `\` when this runs inside the pipeline):
the extension starts at the last dot, unless every character before that dot
is itself a dot, in which case the extension is empty. -/
def splitext_ext (p : Str) : Str :=
  let n := (p.reverse.takeWhile (fun c => c ≠ '.')).length + 1
  if p.contains '.' ∧ (p.take (p.length - n)).any (fun c => c ≠ '.') then
    p.drop (p.length - n)
  else []


/-- Model of `DocumentValidator.validate_file_extension`: lowercase the name,
take `os.path.splitext`[1], and require membership in `ALLOWED_EXTENSIONS`. -/
def DocumentValidator.validate_file_extension (filename : Str) : Except FileValidationError Unit :=
  if filename = [] then .error .emptyFilename
  else
    let ext := splitext_ext (lowerStr filename)
    if ext ∈ ALLOWED_EXTENSIONS then .ok () else .error (.extensionNotAllowed ext)

/-- Model of `DocumentValidator.validate_file_size`. -/
def DocumentValidator.validate_file_size (file_size : Nat) : Except FileValidationError Unit :=
  if file_size > MAX_FILE_SIZE then .error (.fileTooLarge file_size) else .ok ()

/-- Model of `DocumentValidator.validate_mime_type`: `none` embeds a missing
`content_type`; the check fires only when the value is truthy (non-empty). -/
def DocumentValidator.validate_mime_type (content_type : Option Str) : Except FileValidationError Unit :=
  match content_type with
  | none => .ok ()
  | some ct => if ct ≠ [] ∧ ct ∉ ALLOWED_MIME_TYPES then .error (.mimeNotAllowed ct) else .ok ()

/-- Embedding of a Django `UploadedFile`: display name, received bytes and the
client-declared content type (`none` when the attribute is absent or None). -/
structure UploadedFile where
  name : Str
  content : Bytes
  content_type : Option Str
deriving DecidableEq, Repr

/-- Django computes `UploadedFile.size` from the received payload, so in the
model it is the byte length of the content. -/
def UploadedFile.size (f : UploadedFile) : Nat := f.content.length

/-- Truthiness of the `content_type` attribute (Python `and` short-circuit in
`validate_uploaded_file`): present and non-empty. -/
def ctTruthy : Option Str → Bool
  | none => false
  | some s => decide (s ≠ [])

/-- Model of `DocumentValidator.validate_uploaded_file`: filename safety, then
extension, then size, then (when the declared content type is truthy) MIME. -/
def DocumentValidator.validate_uploaded_file (f : UploadedFile) : Except FileValidationError Unit :=
  match DocumentValidator.validate_filename_safety f.name with
  | .error e => .error e
  | .ok _ =>
    match DocumentValidator.validate_file_extension f.name with
    | .error e => .error e
    | .ok _ =>
      match DocumentValidator.validate_file_size f.size with
      | .error e => .error e
      | .ok _ =>
        if ctTruthy f.content_type then DocumentValidator.validate_mime_type f.content_type
        else .ok ()

/-- The `%PDF` magic bytes checked by the header fallback of
`DocumentValidator.validate_file_content`. -/
def pdfMagic : Bytes := [37, 80, 68, 70]

/-- Model of `DocumentValidator.validate_file_content`: error if the file is
absent; otherwise require the content to be recognised as PDF. The model uses
the header-byte check (first four bytes equal `%PDF`) of the source fallback
branch; the python-magic branch is the same check through a library detector. -/
def DocumentValidator.validate_file_content (fs : FS) (path : Str) : Except FileValidationError Unit :=
  match fsLookup fs path with
  | none => .error .contentFileMissing
  | some b => if b.take 4 = pdfMagic then .ok () else .error .contentNotPdf

/-- Characters of the permitted punctuation set in
`InputValidator.sanitize_filename` (dot, hyphen, underscore, parentheses,
square brackets, curly brackets). -/
def safePunct : Str :=
  ['.', '-', '_', '(', ')', '[', ']', Char.ofNat 123, Char.ofNat 125]

/-- A character kept verbatim by `sanitize_filename`: alphanumeric or one of
the permitted punctuation characters. Python `str.isalnum` is Unicode-aware;
the ASCII `Char.isAlphanum` is used here, and every claim proved below about
the sanitiser is insensitive to how the predicate extends beyond ASCII. -/
def isSafeChar (c : Char) : Bool := c.isAlphanum || safePunct.contains c

/-- Model of `InputValidator.sanitize_filename`: empty names become
`unnamed_file.pdf`; otherwise unsafe characters are replaced by `_`, a `.pdf`
suffix is appended unless the lowercased name already ends in `.pdf`, and the
result is truncated to 255 characters (in that order). -/
def InputValidator.sanitize_filename (filename : Str) : Str :=
  if filename = [] then ("unnamed_file.pdf").data
  else
    List.take 255
      (if strEndsWith (lowerStr (filename.map (fun c => if isSafeChar c then c else '_')))
          ((".pdf").data) then
        filename.map (fun c => if isSafeChar c then c else '_')
      else filename.map (fun c => if isSafeChar c then c else '_') ++ (".pdf").data)


/-- Analysis status enumeration (`Document.analysis_status` choices). -/
inductive AnalysisStatus where
  | pending
  | processing
  | completed
  | failed
deriving DecidableEq, Repr

/-- Embedding of the `Document` model row (`documents/models.py`). -/
structure Document where
  id : Int
  filename : Str
  filepath : Str
  filesize : Nat
  created_at : Nat
  analysis_result : Option Str
  analysis_status : AnalysisStatus
  analyzed_at : Option Nat
deriving DecidableEq, Repr

/-- Whole-system state: the storage directory, the `documents` table, the next
autoincrement id, and a clock supplying `auto_now_add` timestamps. -/
structure SysState where
  fs : FS
  db : List Document
  nextId : Int
  now : Nat
deriving DecidableEq, Repr

/-- Model of `DocumentStorageService.save_file`: the caller supplies the
UUID-generated fresh path (`generate_unique_filename`); the received bytes are
written there. -/
def DocumentStorageService.save_file (fs : FS) (path : Str) (f : UploadedFile) : FS :=
  fsWrite fs path f.content

/-- Model of `DocumentStorageService.file_exists`. -/
def DocumentStorageService.file_exists (fs : FS) (path : Str) : Bool :=
  (fsLookup fs path).isSome

/-- Model of `DocumentStorageService.delete_file`: returns the new filesystem
and True when a file was removed, False when it was already absent. Under the
idealised OS the `except OSError: return False` branch cannot fire. -/
def DocumentStorageService.delete_file (fs : FS) (path : Str) : FS × Bool :=
  if DocumentStorageService.file_exists fs path then (fsRemove fs path, true) else (fs, false)

/-- Model of `DatabaseService.create_document_record` plus the model defaults:
new rows get the next autoincrement id, the current clock as `created_at`, and
analysis fields at their declared defaults (`pending`, NULL, NULL). -/
def DatabaseService.create_document_record (st : SysState) (filename filepath : Str)
    (filesize : Nat) : SysState × Document :=
  let d : Document :=
    { id := st.nextId, filename := filename, filepath := filepath, filesize := filesize,
      created_at := st.now, analysis_result := none, analysis_status := .pending,
      analyzed_at := none }
  ({ st with db := d :: st.db, nextId := st.nextId + 1 }, d)

/-- Model of `DatabaseService.get_document_by_id` (`Document.objects.get` with
`DoesNotExist` mapped to `none`). -/
def DatabaseService.get_document_by_id (db : List Document) (document_id : Int) : Option Document :=
  db.find? (fun d => decide (d.id = document_id))

/-- Relation ordering documents newest-first by creation timestamp (the model
of the `-created_at` ordering declared in `Document.Meta`). -/
def newestFirst (a b : Document) : Prop := b.created_at ≤ a.created_at

instance : DecidableRel newestFirst := fun a b => Nat.decLe b.created_at a.created_at

instance : IsTotal Document newestFirst :=
  ⟨fun a b => by unfold newestFirst; exact Nat.le_total _ _⟩

instance : IsTrans Document newestFirst :=
  ⟨fun _ _ _ h1 h2 => by unfold newestFirst at *; exact Nat.le_trans h2 h1⟩

/-- Model of `DatabaseService.get_all_documents`: all rows in the order the
store returns them under `Meta.ordering = ["-created_at"]`. -/
def DatabaseService.get_all_documents (db : List Document) : List Document :=
  db.insertionSort newestFirst

/-- Model of `Document.delete` (`documents/models.py`): remove the physical
file when `filepath` is truthy and the file exists, then delete the row by
primary key. -/
def Document.delete (d : Document) (fs : FS) (db : List Document) : FS × List Document :=
  (if d.filepath ≠ [] ∧ DocumentStorageService.file_exists fs d.filepath then
     fsRemove fs d.filepath
   else fs,
   db.filter (fun x => decide (x.id ≠ d.id)))

/-- Model of `DatabaseService.delete_document_record`: fetch by id, call the
overridden `Document.delete`, report whether a row was found. -/
def DatabaseService.delete_document_record (st : SysState) (document_id : Int) :
    SysState × Bool :=
  match DatabaseService.get_document_by_id st.db document_id with
  | none => (st, false)
  | some d =>
    let (fs2, db2) := d.delete st.fs st.db
    ({ st with fs := fs2, db := db2 }, true)

/-- Model of `document.save()` for analysis updates: replace the row with the
matching primary key. -/
def saveDoc (db : List Document) (d : Document) : List Document :=
  db.map (fun x => if x.id = d.id then d else x)

/-- Whitespace recognised by Python `int(str)` around the digits. -/
def isPySpace (c : Char) : Bool := c = ' ' ∨ c = '\t' ∨ c = '\n' ∨ c = '\r'

/-- Numeric value of a nonempty digit string. -/
def digitsVal (s : Str) : Nat :=
  s.foldl (fun acc c => acc * 10 + (c.toNat - 48)) 0

/-- Model of Python `int(s)` on strings: optional surrounding whitespace, an
optional sign, then one or more decimal digits; `none` embeds the raised
ValueError. (Underscore digit grouping of CPython is not modelled; no claim
depends on it.) -/
def parsePyInt (s : Str) : Option Int :=
  let t := ((s.dropWhile isPySpace).reverse.dropWhile isPySpace).reverse
  match t with
  | '+' :: rest =>
    if rest ≠ [] ∧ rest.all Char.isDigit then some (digitsVal rest) else none
  | '-' :: rest =>
    if rest ≠ [] ∧ rest.all Char.isDigit then some (-(digitsVal rest : Int)) else none
  | _ => if t ≠ [] ∧ t.all Char.isDigit then some (digitsVal t) else none

/-- An argument passed to `InputValidator.validate_document_id`: either an int
(what the URL converter hands the views) or a raw string. -/
inductive IdInput where
  | int (n : Int)
  | str (s : Str)
deriving DecidableEq, Repr

/-- Python `int(x)` over the supported argument shapes. -/
def pyIntOf : IdInput → Option Int
  | .int n => some n
  | .str s => parsePyInt s

/-- The two `ValidationError` messages of `validate_document_id`. -/
inductive IdError where
  | notPositive
  | notAnInteger
deriving DecidableEq, Repr

/-- Model of `InputValidator.validate_document_id`: convert with `int(...)`
(conversion failure gives `notAnInteger`), then require a strictly positive
value (zero or below gives `notPositive`, which is not caught by the
`except (ValueError, TypeError)` clause and so propagates). -/
def InputValidator.validate_document_id (document_id : IdInput) : Except IdError Int :=
  match pyIntOf document_id with
  | none => .error .notAnInteger
  | some n => if n ≤ 0 then .error .notPositive else .ok n

/-- Response of the upload view, by status code and payload. -/
inductive UploadResp where
  | badRequest (e : FileValidationError)
  | storageError500
  | created (d : Document)
deriving DecidableEq, Repr

/-- Model of the `upload_document` view (`documents/views.py`): serializer
validation (`DocumentValidator.validate_uploaded_file`), filename
sanitisation, file write at the generated fresh path, a post-write existence
check, the optional content validation with file cleanup on failure, and
finally record creation with `filesize=uploaded_file.size`. -/
def upload_document (st : SysState) (freshPath : Str) (f : UploadedFile) :
    SysState × UploadResp :=
  match DocumentValidator.validate_uploaded_file f with
  | .error e => (st, .badRequest e)
  | .ok _ =>
    let safe_filename := InputValidator.sanitize_filename f.name
    let fs1 := DocumentStorageService.save_file st.fs freshPath f
    if DocumentStorageService.file_exists fs1 freshPath = false then
      ({ st with fs := fs1 }, .storageError500)
    else
      match DocumentValidator.validate_file_content fs1 freshPath with
      | .error e =>
        let fs2 := (DocumentStorageService.delete_file fs1 freshPath).1
        ({ st with fs := fs2 }, .badRequest e)
      | .ok _ =>
        let (st2, d) :=
          DatabaseService.create_document_record { st with fs := fs1 }
            safe_filename freshPath f.size
        (st2, .created d)

/-- Model of the `list_documents` view: the ordered rows and the count field. -/
def list_documents (st : SysState) : List Document × Nat :=
  let docs := DatabaseService.get_all_documents st.db
  (docs, docs.length)

/-- Replace each double quote by backslash-quote (the Content-Disposition
escaping in `download_document`). -/
def escapeQuotes : Str → Str
  | [] => []
  | c :: rest => if c = '"' then '\\' :: '"' :: escapeQuotes rest else c :: escapeQuotes rest

/-- Response of the download view: 400, the two 404 cases, or a 200
`FileResponse` with its body and header metadata. -/
inductive DownloadResp where
  | badId (e : IdError)
  | notFound
  | fileMissing404
  | ok (content : Bytes) (dispositionFilename : Str) (contentLength : Nat)
deriving DecidableEq, Repr

/-- Model of the `download_document` view: validate the id, fetch the record
(absent gives Http404), check the file on disk (absent gives Http404), then
serve the stored bytes with the escaped record filename and the record
`filesize` as Content-Length. -/
def download_document (st : SysState) (document_id : Int) : DownloadResp :=
  match InputValidator.validate_document_id (.int document_id) with
  | .error e => .badId e
  | .ok i =>
    match DatabaseService.get_document_by_id st.db i with
    | none => .notFound
    | some d =>
      match fsLookup st.fs d.filepath with
      | none => .fileMissing404
      | some b => .ok b (escapeQuotes d.filename) d.filesize

/-- Response of the delete view. -/
inductive DeleteResp where
  | badId (e : IdError)
  | notFound
  | success (message : Str)
  | error500
deriving DecidableEq, Repr

/-- Model of the `delete_document` view: validate the id, fetch the record
(absent gives Http404), delete the file via the storage service, delete the
row via the record service, and build the success message with the soft note
when the file was already missing. -/
def delete_document (st : SysState) (document_id : Int) : SysState × DeleteResp :=
  match InputValidator.validate_document_id (.int document_id) with
  | .error e => (st, .badId e)
  | .ok i =>
    match DatabaseService.get_document_by_id st.db i with
    | none => (st, .notFound)
    | some d =>
      let (fs1, file_deleted) := DocumentStorageService.delete_file st.fs d.filepath
      let (st2, record_deleted) :=
        DatabaseService.delete_document_record { st with fs := fs1 } i
      if record_deleted then
        let message :=
          if file_deleted then ("Document deleted successfully").data
          else ("Document deleted successfully").data
            ++ (" (file was already missing from storage)").data
        (st2, .success message)
      else (st2, .error500)

/-- Environment of one analysis run: whether `get_analyzer()` is configured
(API key present), the outcome of `extract_text_from_pdf` (extracted text or
the raised error message), and the outcome of the `analyze_medical_document`
remote call (analysis text or the raised error message). The two externals
(PyMuPDF and the Mistral API) are oracles of the model. -/
structure AnalyzerEnv where
  available : Bool
  extract : Except Str Str
  api : Except Str Str

/-- Model of `DocumentAnalyzer.analyze_document` (`documents/ai_analyzer.py`):
set the status to `processing` and save; extract text (failure or empty text
raises); call the remote analysis (failure raises); on success save result,
`completed` status, and the completion time; on any exception save `failed`
with the message embedded in `analysis_result` and re-raise. Returns the
final document, the list of saved statuses in save order, and the
returned-or-raised outcome. -/
def DocumentAnalyzer.analyze_document (env : AnalyzerEnv) (d : Document) (now : Nat) :
    Document × List AnalysisStatus × Except Str Str :=
  let d1 : Document := { d with analysis_status := .processing }
  match env.extract with
  | .error e =>
    let d2 := { d1 with
      analysis_status := AnalysisStatus.failed
      analysis_result := some (("Analysis failed: ").data ++ e) }
    (d2, [.processing, .failed], .error e)
  | .ok text =>
    if text = [] then
      let msg := ("No text content could be extracted from the PDF").data
      let d2 := { d1 with
        analysis_status := AnalysisStatus.failed
        analysis_result := some (("Analysis failed: ").data ++ msg) }
      (d2, [.processing, .failed], .error msg)
    else
      match env.api with
      | .error e =>
        let d2 := { d1 with
          analysis_status := AnalysisStatus.failed
          analysis_result := some (("Analysis failed: ").data ++ e) }
        (d2, [.processing, .failed], .error e)
      | .ok r =>
        let d2 := { d1 with
          analysis_result := some r
          analysis_status := AnalysisStatus.completed
          analyzed_at := some now }
        (d2, [.processing, .completed], .ok r)

/-- Response of the analyze view. -/
inductive AnalyzeResp where
  | badId (e : IdError)
  | notFound
  | fileMissing
  | unavailable503
  | inProgress202
  | analyzed200 (analysis : Str)
  | failed500 (message : Str)
deriving DecidableEq, Repr

/-- Model of the `analyze_document` view: validate the id, fetch (404), check
the physical file (404), check analyzer availability (503), return 202 when
the status is already `processing`, otherwise run the analyzer, persist the
updated row, and answer 200 on success or 500 (message prefixed with
`Analysis failed: `) on a raised exception. The boolean reports whether
`analyzer.analyze_document` was invoked. -/
def analyze_document (env : AnalyzerEnv) (st : SysState) (document_id : Int) :
    SysState × AnalyzeResp × Bool :=
  match InputValidator.validate_document_id (.int document_id) with
  | .error e => (st, .badId e, false)
  | .ok i =>
    match DatabaseService.get_document_by_id st.db i with
    | none => (st, .notFound, false)
    | some d =>
      if DocumentStorageService.file_exists st.fs d.filepath = false then
        (st, .fileMissing, false)
      else if env.available = false then (st, .unavailable503, false)
      else if d.analysis_status = .processing then (st, .inProgress202, false)
      else
        let (d2, _trace, res) := DocumentAnalyzer.analyze_document env d st.now
        let st2 := { st with db := saveDoc st.db d2 }
        match res with
        | .ok r => (st2, .analyzed200 r, true)
        | .error e => (st2, .failed500 (("Analysis failed: ").data ++ e), true)

/-- Response of the get-analysis view. -/
inductive AnalysisGetResp where
  | badId (e : IdError)
  | notFound
  | ok (analysis : Option Str) (stat : AnalysisStatus) (analyzed_at : Option Nat)
deriving DecidableEq, Repr

/-- Model of the `get_document_analysis` view. -/
def get_document_analysis (st : SysState) (document_id : Int) : AnalysisGetResp :=
  match InputValidator.validate_document_id (.int document_id) with
  | .error e => .badId e
  | .ok i =>
    match DatabaseService.get_document_by_id st.db i with
    | none => .notFound
    | some d => .ok d.analysis_result d.analysis_status d.analyzed_at

/-- Model of the Django `<int:document_id>` path converter used by every
id-taking route in `documents/urls.py`: its regex is `[0-9]+`, so a URL
segment matches exactly when it is a nonempty string of decimal digits, and
the matched value reaches the view as a nonnegative int. A non-matching
segment resolves to no route at all. -/
def route_int (s : Str) : Option Int :=
  if s ≠ [] ∧ s.all Char.isDigit then some (digitsVal s) else none

/-- HTTP status of `GET /documents/{segment}/` including URL resolution: an
unmatched segment is a 404 from the URL resolver. -/
def download_http (st : SysState) (s : Str) : Nat :=
  match route_int s with
  | none => 404
  | some n =>
    match download_document st n with
    | .badId _ => 400
    | .notFound => 404
    | .fileMissing404 => 404
    | .ok _ _ _ => 200

/-- HTTP status of `DELETE /documents/{segment}/delete/` including URL
resolution. -/
def delete_http (st : SysState) (s : Str) : Nat :=
  match route_int s with
  | none => 404
  | some n =>
    match (delete_document st n).2 with
    | .badId _ => 400
    | .notFound => 404
    | .success _ => 200
    | .error500 => 500

/-- HTTP status of `POST /documents/{segment}/analyze/` including URL
resolution. -/
def analyze_http (env : AnalyzerEnv) (st : SysState) (s : Str) : Nat :=
  match route_int s with
  | none => 404
  | some n =>
    match (analyze_document env st n).2.1 with
    | .badId _ => 400
    | .notFound => 404
    | .fileMissing => 404
    | .unavailable503 => 503
    | .inProgress202 => 202
    | .analyzed200 _ => 200
    | .failed500 _ => 500

/-- HTTP status of `GET /documents/{segment}/analysis/` including URL
resolution. -/
def analysis_http (st : SysState) (s : Str) : Nat :=
  match route_int s with
  | none => 404
  | some n =>
    match get_document_analysis st n with
    | .badId _ => 400
    | .notFound => 404
    | .ok _ _ _ => 200

/-- A state with no files and no rows, clock 0 and next id 1: used to
evaluate theorems at concrete inputs. -/
def st0 : SysState := { fs := [], db := [], nextId := 1, now := 0 }

/-- A well-formed small PDF upload used to evaluate theorems. -/
def samplePdf : UploadedFile :=
  { name := ("report.pdf").data, content := pdfMagic ++ [49, 50],
    content_type := some ("application/pdf").data }

/-- An upload with the wrong extension, rejected by the validators. -/
def sampleTxt : UploadedFile :=
  { name := ("notes.txt").data, content := [104, 105],
    content_type := some ("text/plain").data }

/-- An upload that passes the validators but whose bytes are not a PDF. -/
def sampleFakePdf : UploadedFile :=
  { name := ("fake.pdf").data, content := [77, 90, 0, 1],
    content_type := some ("application/pdf").data }

/-- A stored document row used to evaluate theorems. -/
def doc1 : Document :=
  { id := 1, filename := ("report.pdf").data, filepath := ("u1.pdf").data, filesize := 6,
    created_at := 3, analysis_result := none, analysis_status := .pending,
    analyzed_at := none }

/-- A state holding `doc1` and its file. -/
def st1 : SysState :=
  { fs := [(("u1.pdf").data, pdfMagic ++ [49, 50])], db := [doc1], nextId := 2, now := 5 }

/-- The row of `doc1` while an analysis is marked in progress. -/
def doc1p : Document := { doc1 with analysis_status := AnalysisStatus.processing }

/-- The state of `st1` while an analysis of `doc1` is marked in progress. -/
def st1p : SysState := { st1 with db := [doc1p] }

/-- An analyzer environment where everything succeeds. -/
def env0 : AnalyzerEnv :=
  { available := true, extract := .ok ("hello").data, api := .ok ("summary").data }

/-- The document row a successful upload of `f` at `path` creates from state
`st` (abbreviation for the record built by `create_document_record`). -/
def mkDoc (st : SysState) (f : UploadedFile) (path : Str) : Document :=
  { id := st.nextId, filename := InputValidator.sanitize_filename f.name, filepath := path,
    filesize := f.size, created_at := st.now, analysis_result := none,
    analysis_status := .pending, analyzed_at := none }

/-- The record-file consistency invariant of the data model: every row's file
is present at its filepath with exactly `filesize` bytes, rows have pairwise
distinct filepaths and pairwise distinct ids, and every id is below the
autoincrement counter. -/
def goodState (st : SysState) : Prop :=
  (∀ d ∈ st.db, ∃ b, fsLookup st.fs d.filepath = some b ∧ b.length = d.filesize) ∧
  st.db.Pairwise (fun a b => a.filepath ≠ b.filepath) ∧
  st.db.Pairwise (fun a b => a.id ≠ b.id) ∧
  (∀ d ∈ st.db, d.id < st.nextId)

/-- One state-changing operation of the service. The upload step supplies the
freshly generated storage path, which by UUID generation does not collide
with an existing file; the tick step lets the `auto_now_add` clock advance
between requests. -/
inductive Step : SysState → SysState → Prop where
  | upload (st : SysState) (path : Str) (f : UploadedFile)
      (fresh : fsLookup st.fs path = none) : Step st (upload_document st path f).1
  | del (st : SysState) (i : Int) : Step st (delete_document st i).1
  | analyze (env : AnalyzerEnv) (st : SysState) (i : Int) :
      Step st (analyze_document env st i).1
  | recordDelete (st : SysState) (i : Int) :
      Step st (DatabaseService.delete_document_record st i).1
  | tick (st : SysState) (t : Nat) : Step st { st with now := t }

theorem fsLookup_write_self (fs : FS) (p : Str) (b : Bytes) :
    fsLookup (fsWrite fs p b) p = some b := by
  simp [fsWrite, fsLookup]

theorem fsLookup_write_ne (fs : FS) (p q : Str) (b : Bytes) (h : p ≠ q) :
    fsLookup (fsWrite fs p b) q = fsLookup fs q := by
  simp [fsWrite, fsLookup, h]

theorem fsLookup_remove_self (fs : FS) (p : Str) : fsLookup (fsRemove fs p) p = none := by
  induction fs with
  | nil => rfl
  | cons e rest ih =>
    obtain ⟨k, b⟩ := e
    by_cases h : k = p
    · simpa [fsRemove, h] using ih
    · simpa [fsRemove, fsLookup, h] using ih

theorem fsLookup_remove_ne (fs : FS) (p q : Str) (h : q ≠ p) :
    fsLookup (fsRemove fs p) q = fsLookup fs q := by
  induction fs with
  | nil => rfl
  | cons e rest ih =>
    obtain ⟨k, b⟩ := e
    by_cases hk : k = p
    · subst hk
      have hkq : k ≠ q := fun hh => h hh.symm
      simp [fsRemove, fsLookup, hkq, ih]
    · by_cases hq : k = q
      · simp [fsRemove, fsLookup, hk, hq, h]
      · simp [fsRemove, fsLookup, hk, hq, ih]

theorem fsRemove_of_lookup_none (fs : FS) (p : Str) (h : fsLookup fs p = none) :
    fsRemove fs p = fs := by
  induction fs with
  | nil => rfl
  | cons e rest ih =>
    obtain ⟨k, b⟩ := e
    by_cases hk : k = p
    · simp [fsLookup, hk] at h
    · simp [fsLookup, hk] at h
      simp [fsRemove, hk, ih h]

theorem all_take {p : Char → Bool} {l : Str} (h : l.all p = true) (n : Nat) :
    (l.take n).all p = true := by
  rw [List.all_eq_true] at *
  intro c hc
  exact h c ((List.take_sublist n l).subset hc)

theorem mapped_all_safe (s : Str) :
    (s.map (fun c => if isSafeChar c then c else '_')).all isSafeChar = true := by
  rw [List.all_eq_true]
  intro c hc
  rw [List.mem_map] at hc
  obtain ⟨a, _, rfl⟩ := hc
  by_cases h : isSafeChar a = true
  · simp [h]
  · simp only [h, if_neg]
    simp at h
    simp [h]
    decide

theorem strEndsWith_append (l suf : Str) : strEndsWith (l ++ suf) suf = true := by
  unfold strEndsWith
  rw [List.length_append, Nat.add_sub_cancel, List.drop_left]
  simp

theorem sanitize_all_safe (s : Str) :
    (InputValidator.sanitize_filename s).all isSafeChar = true := by
  unfold InputValidator.sanitize_filename
  by_cases hs : s = []
  · simp [hs]; decide
  · simp only [hs, if_neg, if_false]
    apply all_take
    by_cases hend : strEndsWith (lowerStr (s.map fun c => if isSafeChar c then c else '_')) ((".pdf").data) = true
    · simpa [hend] using mapped_all_safe s
    · rw [if_neg hend, List.all_append, Bool.and_eq_true]
      exact ⟨mapped_all_safe s, by decide⟩


theorem lowerStr_append (a b : Str) : lowerStr (a ++ b) = lowerStr a ++ lowerStr b := by
  simp [lowerStr]

theorem sanitize_endsWith_pdf (s : Str) (hne : s ≠ []) (hlen : s.length ≤ 251) :
    strEndsWith (lowerStr (InputValidator.sanitize_filename s)) ((".pdf").data) = true := by
  unfold InputValidator.sanitize_filename
  rw [if_neg hne]
  have hA : (s.map fun c => if isSafeChar c then c else '_').length = s.length :=
    List.length_map s _
  by_cases hend :
      strEndsWith (lowerStr (s.map fun c => if isSafeChar c then c else '_')) ((".pdf").data) = true
  · rw [if_pos hend, List.take_of_length_le (by rw [hA]; omega)]
    exact hend
  · rw [if_neg hend, List.take_of_length_le (by rw [List.length_append, hA]; simp; omega)]
    rw [lowerStr_append]
    have hpdf : lowerStr ((".pdf").data) = (".pdf").data := by decide
    rw [hpdf]
    exact strEndsWith_append _ _

set_option maxRecDepth 100000 in
/-- C2, counterexample: on an input of 256 letters the sanitiser truncates
after appending the suffix, so the result does not end with `.pdf` (not even
case-insensitively), refuting the all-three-simultaneously claim. -/
theorem C2_counterexample :
    (List.replicate 256 'a' : Str) ≠ [] ∧
    strEndsWith (InputValidator.sanitize_filename (List.replicate 256 'a')) ((".pdf").data)
      = false ∧
    strEndsWith (lowerStr (InputValidator.sanitize_filename (List.replicate 256 'a')))
      ((".pdf").data) = false := by decide

/-- C2 (amended): for every non-empty filename the sanitiser output consists
only of kept-safe characters and underscores and has length at most 255; and
it ends with `.pdf` case-insensitively provided the input has at most 251
characters (truncation to 255 happens after the suffix is appended, so longer
inputs can lose the suffix; an input already ending in `.PDF` in any casing
keeps its original casing). -/
theorem C2_sanitize_amended (s : Str) (hne : s ≠ []) :
    (InputValidator.sanitize_filename s).all isSafeChar = true ∧
    (InputValidator.sanitize_filename s).length ≤ 255 ∧
    (s.length ≤ 251 →
      strEndsWith (lowerStr (InputValidator.sanitize_filename s)) ((".pdf").data) = true) := by
  refine ⟨sanitize_all_safe s, ?_, fun hlen => sanitize_endsWith_pdf s hne hlen⟩
  unfold InputValidator.sanitize_filename
  rw [if_neg hne]
  by_cases hend :
      strEndsWith (lowerStr (s.map fun c => if isSafeChar c then c else '_')) ((".pdf").data) = true
  · rw [if_pos hend]
    simp
  · rw [if_neg hend]
    simp

/-- C2, witness: the amended theorem evaluated at the concrete input
`a b.pdf`. -/
theorem C2_sanitize_amended_witness :
    (InputValidator.sanitize_filename ("a b.pdf").data).all isSafeChar = true ∧
    (InputValidator.sanitize_filename ("a b.pdf").data).length ≤ 255 ∧
    (("a b.pdf").data.length ≤ 251 →
      strEndsWith (lowerStr (InputValidator.sanitize_filename ("a b.pdf").data))
        ((".pdf").data) = true) :=
  C2_sanitize_amended ("a b.pdf").data (by decide)

theorem mime_error_truthy {ct : Option Str} {e : FileValidationError}
    (h : DocumentValidator.validate_mime_type ct = .error e) : ctTruthy ct = true := by
  cases ct with
  | none => simp [DocumentValidator.validate_mime_type] at h
  | some s =>
    by_cases hs : s = []
    · simp [DocumentValidator.validate_mime_type, hs] at h
    · simp [ctTruthy, hs]

theorem mime_ok_of_not_truthy {ct : Option Str} (h : ctTruthy ct = false) :
    DocumentValidator.validate_mime_type ct = .ok () := by
  cases ct with
  | none => rfl
  | some s =>
    simp [ctTruthy] at h
    simp [DocumentValidator.validate_mime_type, h]

theorem vuf_safety_error {f : UploadedFile} {e : FileValidationError}
    (h : DocumentValidator.validate_filename_safety f.name = .error e) :
    DocumentValidator.validate_uploaded_file f = .error e := by
  simp [DocumentValidator.validate_uploaded_file, h]

theorem vuf_ext_error {f : UploadedFile} {e : FileValidationError}
    (h1 : DocumentValidator.validate_filename_safety f.name = .ok ())
    (h2 : DocumentValidator.validate_file_extension f.name = .error e) :
    DocumentValidator.validate_uploaded_file f = .error e := by
  simp [DocumentValidator.validate_uploaded_file, h1, h2]

theorem vuf_size_error {f : UploadedFile} {e : FileValidationError}
    (h1 : DocumentValidator.validate_filename_safety f.name = .ok ())
    (h2 : DocumentValidator.validate_file_extension f.name = .ok ())
    (h3 : DocumentValidator.validate_file_size f.size = .error e) :
    DocumentValidator.validate_uploaded_file f = .error e := by
  simp [DocumentValidator.validate_uploaded_file, h1, h2, h3]

theorem vuf_mime_error {f : UploadedFile} {e : FileValidationError}
    (h1 : DocumentValidator.validate_filename_safety f.name = .ok ())
    (h2 : DocumentValidator.validate_file_extension f.name = .ok ())
    (h3 : DocumentValidator.validate_file_size f.size = .ok ())
    (h4 : DocumentValidator.validate_mime_type f.content_type = .error e) :
    DocumentValidator.validate_uploaded_file f = .error e := by
  have ht := mime_error_truthy h4
  simp [DocumentValidator.validate_uploaded_file, h1, h2, h3, ht, h4]

theorem vuf_all_ok {f : UploadedFile}
    (h1 : DocumentValidator.validate_filename_safety f.name = .ok ())
    (h2 : DocumentValidator.validate_file_extension f.name = .ok ())
    (h3 : DocumentValidator.validate_file_size f.size = .ok ())
    (h4 : DocumentValidator.validate_mime_type f.content_type = .ok ()) :
    DocumentValidator.validate_uploaded_file f = .ok () := by
  cases ht : ctTruthy f.content_type with
  | true => simp [DocumentValidator.validate_uploaded_file, h1, h2, h3, ht, h4]
  | false => simp [DocumentValidator.validate_uploaded_file, h1, h2, h3, ht]

theorem upload_reject_of_invalid {st : SysState} {path : Str} {f : UploadedFile}
    {e : FileValidationError} (h : DocumentValidator.validate_uploaded_file f = .error e) :
    upload_document st path f = (st, .badRequest e) := by
  simp [upload_document, h]

/-- C4: for every uploaded file the validator checks run in the order
filename safety, extension, size, MIME; the first failing check determines
the raised error (the later checks cannot override it), the validator
succeeds exactly when all four checks pass, and a file the validator rejects
makes the upload view answer 400 with the system state untouched (no storage
write, no record creation). -/
theorem C4_validation_order (f : UploadedFile) :
    (DocumentValidator.validate_uploaded_file f = .ok () ↔
      (DocumentValidator.validate_filename_safety f.name = .ok () ∧
       DocumentValidator.validate_file_extension f.name = .ok () ∧
       DocumentValidator.validate_file_size f.size = .ok () ∧
       DocumentValidator.validate_mime_type f.content_type = .ok ())) ∧
    (∀ e, DocumentValidator.validate_filename_safety f.name = .error e →
      DocumentValidator.validate_uploaded_file f = .error e) ∧
    (∀ e, DocumentValidator.validate_filename_safety f.name = .ok () →
      DocumentValidator.validate_file_extension f.name = .error e →
      DocumentValidator.validate_uploaded_file f = .error e) ∧
    (∀ e, DocumentValidator.validate_filename_safety f.name = .ok () →
      DocumentValidator.validate_file_extension f.name = .ok () →
      DocumentValidator.validate_file_size f.size = .error e →
      DocumentValidator.validate_uploaded_file f = .error e) ∧
    (∀ e, DocumentValidator.validate_filename_safety f.name = .ok () →
      DocumentValidator.validate_file_extension f.name = .ok () →
      DocumentValidator.validate_file_size f.size = .ok () →
      DocumentValidator.validate_mime_type f.content_type = .error e →
      DocumentValidator.validate_uploaded_file f = .error e) ∧
    (∀ st path e, DocumentValidator.validate_uploaded_file f = .error e →
      upload_document st path f = (st, .badRequest e)) := by
  refine ⟨⟨?_, ?_⟩, ?_, ?_, ?_, ?_, ?_⟩
  · intro h
    cases h1 : DocumentValidator.validate_filename_safety f.name with
    | error e => rw [vuf_safety_error h1] at h; simp at h
    | ok u =>
      cases u
      cases h2 : DocumentValidator.validate_file_extension f.name with
      | error e => rw [vuf_ext_error h1 h2] at h; simp at h
      | ok u =>
        cases u
        cases h3 : DocumentValidator.validate_file_size f.size with
        | error e => rw [vuf_size_error h1 h2 h3] at h; simp at h
        | ok u =>
          cases u
          cases h4 : DocumentValidator.validate_mime_type f.content_type with
          | error e => rw [vuf_mime_error h1 h2 h3 h4] at h; simp at h
          | ok u => cases u; exact ⟨rfl, rfl, rfl, rfl⟩
  · rintro ⟨h1, h2, h3, h4⟩
    exact vuf_all_ok h1 h2 h3 h4
  · intro e h1
    exact vuf_safety_error h1
  · intro e h1 h2
    exact vuf_ext_error h1 h2
  · intro e h1 h2 h3
    exact vuf_size_error h1 h2 h3
  · intro e h1 h2 h3 h4
    exact vuf_mime_error h1 h2 h3 h4
  · intro st path e h
    exact upload_reject_of_invalid h

/-- C4, witness: the order theorem evaluated on a concrete file whose
filename safety passes and whose extension check fails. -/
theorem C4_validation_order_witness :
    DocumentValidator.validate_uploaded_file sampleTxt
      = .error (.extensionNotAllowed ((".txt").data)) ∧
    upload_document st0 (("u9.txt").data) sampleTxt
      = (st0, .badRequest (.extensionNotAllowed ((".txt").data))) := by
  have h2 : DocumentValidator.validate_file_extension sampleTxt.name
      = .error (.extensionNotAllowed ((".txt").data)) := by decide
  have h1 : DocumentValidator.validate_filename_safety sampleTxt.name = .ok () := by decide
  have hv := (C4_validation_order sampleTxt).2.2.1 (.extensionNotAllowed ((".txt").data)) h1 h2
  exact ⟨hv, (C4_validation_order sampleTxt).2.2.2.2.2 st0 (("u9.txt").data) _ hv⟩

theorem upload_valid_eq (st : SysState) (path : Str) (f : UploadedFile)
    (hv : DocumentValidator.validate_uploaded_file f = .ok ()) :
    upload_document st path f =
      if f.content.take 4 = pdfMagic then
        ({ st with
            fs := fsWrite st.fs path f.content
            db := mkDoc st f path :: st.db
            nextId := st.nextId + 1 }, .created (mkDoc st f path))
      else
        ({ st with fs := fsRemove (fsWrite st.fs path f.content) path },
         .badRequest .contentNotPdf) := by
  simp only [upload_document, hv]
  simp only [DocumentStorageService.save_file, DocumentStorageService.file_exists,
    DocumentValidator.validate_file_content, DocumentStorageService.delete_file,
    DatabaseService.create_document_record, fsWrite, fsLookup, mkDoc]
  by_cases hpdf : f.content.take 4 = pdfMagic <;> simp [hpdf, UploadedFile.size]

/-- C1: every upload request answered with a 400 rejection (unsafe filename,
wrong extension, oversize, bad MIME type, or non-PDF magic bytes found by the
post-write content check) leaves the system state exactly as it was: no file
persists in the storage directory and no Document record is created; in
particular the content-check failure path deletes the just-written file
before the error is returned. -/
theorem C1_rejected_upload_state_unchanged (st : SysState) (path : Str) (f : UploadedFile)
    (e : FileValidationError) (hfresh : fsLookup st.fs path = none)
    (h : (upload_document st path f).2 = .badRequest e) :
    (upload_document st path f).1 = st := by
  cases hv : DocumentValidator.validate_uploaded_file f with
  | error e2 => rw [upload_reject_of_invalid hv]
  | ok u =>
    cases u
    rw [upload_valid_eq st path f hv] at h ⊢
    by_cases hpdf : f.content.take 4 = pdfMagic
    · rw [if_pos hpdf] at h
      simp at h
    · rw [if_neg hpdf]
      have hrm : fsRemove (fsWrite st.fs path f.content) path = st.fs := by
        simp only [fsWrite, fsRemove, if_pos rfl]
        exact fsRemove_of_lookup_none st.fs path hfresh
      rw [hrm]

/-- C1, witness: a file whose bytes are not a PDF is written and then cleaned
up, the state is returned unchanged. -/
theorem C1_witness :
    fsLookup st0.fs (("u9.pdf").data) = none ∧
    (upload_document st0 (("u9.pdf").data) sampleFakePdf).2 = .badRequest .contentNotPdf ∧
    (upload_document st0 (("u9.pdf").data) sampleFakePdf).1 = st0 := by
  refine ⟨rfl, by decide, ?_⟩
  exact C1_rejected_upload_state_unchanged st0 (("u9.pdf").data) sampleFakePdf
    .contentNotPdf rfl (by decide)

/-- C8: for every state, listing returns exactly as many entries as there are
Document records, the entries are exactly the stored records, and they are
ordered by creation timestamp newest first; the count field of the list view
equals that number. -/
theorem C8_list_newest_first (st : SysState) :
    (DatabaseService.get_all_documents st.db).length = st.db.length ∧
    (DatabaseService.get_all_documents st.db).Perm st.db ∧
    List.Sorted newestFirst (DatabaseService.get_all_documents st.db) ∧
    (list_documents st).2 = st.db.length := by
  refine ⟨List.length_insertionSort newestFirst st.db, List.perm_insertionSort newestFirst st.db,
    List.sorted_insertionSort newestFirst st.db, ?_⟩
  simp [list_documents, DatabaseService.get_all_documents,
    List.length_insertionSort newestFirst st.db]

/-- C9: deleting a Document through the record service alone also removes the
physical file at the record's filepath (a file already absent is tolerated),
then deletes the row and reports True, so no orphan file at the record's path
is left behind; an unknown id reports False and changes nothing. -/
theorem C9_record_delete_no_orphan (st : SysState) (i : Int) :
    (∀ d, DatabaseService.get_document_by_id st.db i = some d → d.filepath ≠ [] →
      (DatabaseService.delete_document_record st i).2 = true ∧
      fsLookup (DatabaseService.delete_document_record st i).1.fs d.filepath = none ∧
      DatabaseService.get_document_by_id (DatabaseService.delete_document_record st i).1.db i
        = none) ∧
    (DatabaseService.get_document_by_id st.db i = none →
      DatabaseService.delete_document_record st i = (st, false)) := by
  constructor
  · intro d hd hne
    have hid : d.id = i := by
      have := List.find?_some hd
      simpa using this
    refine ⟨?_, ?_, ?_⟩
    · simp [DatabaseService.delete_document_record, hd]
    · simp only [DatabaseService.delete_document_record, hd, Document.delete]
      by_cases hex : DocumentStorageService.file_exists st.fs d.filepath = true
      · simp [hne, hex, fsLookup_remove_self]
      · simp only [Bool.not_eq_true] at hex
        simp [hne, hex]
        simp only [DocumentStorageService.file_exists] at hex
        cases hl : fsLookup st.fs d.filepath with
        | none => rfl
        | some b => rw [hl] at hex; simp at hex
    · simp only [DatabaseService.delete_document_record, hd, Document.delete]
      simp only [DatabaseService.get_document_by_id]
      rw [List.find?_eq_none]
      intro x hx
      have hmem := List.mem_filter.mp hx
      have hxid : x.id ≠ d.id := by simpa using hmem.2
      simp [hid ▸ hxid]
  · intro hnone
    simp [DatabaseService.delete_document_record, hnone]

/-- C9, witness: deleting the stored document of the sample state removes
both the file and the row. -/
theorem C9_witness :
    (DatabaseService.delete_document_record st1 1).2 = true ∧
    fsLookup (DatabaseService.delete_document_record st1 1).1.fs doc1.filepath = none ∧
    DatabaseService.get_document_by_id (DatabaseService.delete_document_record st1 1).1.db 1
      = none :=
  (C9_record_delete_no_orphan st1 1).1 doc1 (by decide) (by decide)

theorem validate_int_pos {i : Int} (hi : 0 < i) :
    InputValidator.validate_document_id (.int i) = .ok i := by
  simp only [InputValidator.validate_document_id, pyIntOf]
  rw [if_neg (by omega)]

theorem get_filter_out_none (db : List Document) (i : Int) (d : Document) (hid : d.id = i) :
    DatabaseService.get_document_by_id (db.filter (fun x => decide (x.id ≠ d.id))) i = none := by
  simp only [DatabaseService.get_document_by_id]
  rw [List.find?_eq_none]
  intro x hx
  have hmem := List.mem_filter.mp hx
  have hxid : x.id ≠ d.id := by simpa using hmem.2
  simp [hid ▸ hxid]

theorem escapeQuotes_id_of_safe (l : Str) (h : l.all isSafeChar = true) :
    escapeQuotes l = l := by
  induction l with
  | nil => rfl
  | cons c rest ih =>
    rw [List.all_cons, Bool.and_eq_true] at h
    have hc : c ≠ '"' := by
      intro hq
      subst hq
      exact absurd h.1 (by decide)
    simp [escapeQuotes, hc, ih h.2]

theorem delete_document_found (st : SysState) (i : Int) (d : Document) (hi : 0 < i)
    (hd : DatabaseService.get_document_by_id st.db i = some d) :
    delete_document st i =
      ({ st with
          fs := (DocumentStorageService.delete_file st.fs d.filepath).1
          db := st.db.filter (fun x => decide (x.id ≠ d.id)) },
       .success (if (DocumentStorageService.delete_file st.fs d.filepath).2 then
           ("Document deleted successfully").data
         else ("Document deleted successfully").data
           ++ (" (file was already missing from storage)").data)) := by
  have hval := validate_int_pos hi
  have hd' : List.find? (fun x => decide (x.id = i)) st.db = some d := by
    simpa [DatabaseService.get_document_by_id] using hd
  by_cases hex : DocumentStorageService.file_exists st.fs d.filepath = true
  · have hgone : DocumentStorageService.file_exists (fsRemove st.fs d.filepath) d.filepath
        = false := by
      simp [DocumentStorageService.file_exists, fsLookup_remove_self]
    simp [delete_document, hval, DatabaseService.delete_document_record,
      DatabaseService.get_document_by_id, Document.delete, DocumentStorageService.delete_file,
      hd', hex, hgone]
  · simp only [Bool.not_eq_true] at hex
    simp [delete_document, hval, DatabaseService.delete_document_record,
      DatabaseService.get_document_by_id, Document.delete, DocumentStorageService.delete_file,
      hd', hex]

/-- C5: delete on an unknown id is a not-found error with the state
unchanged; on an existing record the file at the record's filepath ends up
absent and the record deleted, and the view reports success in both the
file-present and file-already-missing cases, surfacing the latter only as the
informational note appended to the success message. -/
theorem C5_delete_semantics (st : SysState) (i : Int) (hi : 0 < i) :
    (DatabaseService.get_document_by_id st.db i = none →
      delete_document st i = (st, .notFound)) ∧
    (∀ d, DatabaseService.get_document_by_id st.db i = some d →
      fsLookup (delete_document st i).1.fs d.filepath = none ∧
      DatabaseService.get_document_by_id (delete_document st i).1.db i = none ∧
      (DocumentStorageService.file_exists st.fs d.filepath = true →
        (delete_document st i).2 = .success (("Document deleted successfully").data)) ∧
      (DocumentStorageService.file_exists st.fs d.filepath = false →
        (delete_document st i).2 = .success ((("Document deleted successfully").data
          ++ (" (file was already missing from storage)").data)))) := by
  have hval := validate_int_pos hi
  constructor
  · intro hnone
    simp [delete_document, hval, hnone]
  · intro d hd
    have hid : d.id = i := by
      have := List.find?_some hd
      simpa using this
    rw [delete_document_found st i d hi hd]
    refine ⟨?_, ?_, ?_, ?_⟩
    · by_cases hex : DocumentStorageService.file_exists st.fs d.filepath = true
      · simp [DocumentStorageService.delete_file, hex, fsLookup_remove_self]
      · simp only [Bool.not_eq_true] at hex
        have hnone : fsLookup st.fs d.filepath = none := by
          simp only [DocumentStorageService.file_exists] at hex
          cases hl : fsLookup st.fs d.filepath with
          | none => rfl
          | some b => rw [hl] at hex; simp at hex
        simp [DocumentStorageService.delete_file, hex, hnone]
    · simpa using get_filter_out_none st.db i d hid
    · intro hex
      simp [DocumentStorageService.delete_file, hex]
    · intro hex
      simp [DocumentStorageService.delete_file, hex]

/-- C5, witness: deleting the sample document (whose file is present) removes
file and record and reports plain success. -/
theorem C5_witness :
    fsLookup (delete_document st1 1).1.fs doc1.filepath = none ∧
    DatabaseService.get_document_by_id (delete_document st1 1).1.db 1 = none ∧
    (delete_document st1 1).2 = .success (("Document deleted successfully").data) := by
  have h := (C5_delete_semantics st1 1 (by decide)).2 doc1 (by decide)
  exact ⟨h.1, h.2.1, h.2.2.1 (by decide)⟩

/-- C6: download on an unknown id is a not-found error; on a record whose
file is gone from disk it is also a not-found error rather than a crash;
otherwise the stored bytes are served with the record's filename (on which
the quote-escaping is the identity, as it is for every sanitised name) and
the record's exact filesize as the Content-Length metadata. -/
theorem C6_download_semantics (st : SysState) (i : Int) (hi : 0 < i) :
    (DatabaseService.get_document_by_id st.db i = none →
      download_document st i = .notFound) ∧
    (∀ d, DatabaseService.get_document_by_id st.db i = some d →
      fsLookup st.fs d.filepath = none → download_document st i = .fileMissing404) ∧
    (∀ d b, DatabaseService.get_document_by_id st.db i = some d →
      fsLookup st.fs d.filepath = some b →
      download_document st i = .ok b (escapeQuotes d.filename) d.filesize) ∧
    (∀ s, escapeQuotes (InputValidator.sanitize_filename s)
      = InputValidator.sanitize_filename s) := by
  have hval := validate_int_pos hi
  refine ⟨?_, ?_, ?_, ?_⟩
  · intro hnone
    simp [download_document, hval, hnone]
  · intro d hd hmiss
    simp [download_document, hval, hd, hmiss]
  · intro d b hd hb
    simp [download_document, hval, hd, hb]
  · intro s
    exact escapeQuotes_id_of_safe _ (sanitize_all_safe s)

/-- C6, witness: downloading the sample document returns its stored bytes,
its filename, and its recorded size. -/
theorem C6_witness :
    download_document st1 1
      = .ok (pdfMagic ++ [49, 50]) (escapeQuotes doc1.filename) doc1.filesize :=
  (C6_download_semantics st1 1 (by decide)).2.2.1 doc1 (pdfMagic ++ [49, 50])
    (by decide) (by decide)

/-- C10, counterexample: a request with id segment `-1` does not match the
`<int:document_id>` route (regex `[0-9]+`), so every id-taking endpoint
answers 404 from URL resolution, not the claimed 400; the validator is never
reached for negative ids. -/
theorem C10_counterexample :
    download_http st0 (("-1").data) = 404 ∧ download_http st0 (("-1").data) ≠ 400 ∧
    delete_http st0 (("-1").data) = 404 ∧ analyze_http env0 st0 (("-1").data) = 404 ∧
    analysis_http st0 (("-1").data) = 404 := by decide

/-- C10 (amended): validate_document_id succeeds with n exactly when its
input converts via int() to n > 0, raising the not-positive error for zero
and negative values and the not-an-integer error for failed conversions; at
the HTTP surface the id `0` (which the int route converter does pass through)
is rejected with 400 by all four id-taking endpoints, while negative and
non-numeric id segments fail URL resolution and yield 404 without reaching
the validator. -/
theorem C10_id_validation_amended :
    (∀ x n, InputValidator.validate_document_id x = .ok n ↔
      (pyIntOf x = some n ∧ 0 < n)) ∧
    (∀ x n, pyIntOf x = some n → n ≤ 0 →
      InputValidator.validate_document_id x = .error .notPositive) ∧
    (∀ x, pyIntOf x = none →
      InputValidator.validate_document_id x = .error .notAnInteger) ∧
    (∀ st env, download_http st (("0").data) = 400 ∧ delete_http st (("0").data) = 400 ∧
      analyze_http env st (("0").data) = 400 ∧ analysis_http st (("0").data) = 400) ∧
    (∀ st env s, route_int s = none → download_http st s = 404 ∧ delete_http st s = 404 ∧
      analyze_http env st s = 404 ∧ analysis_http st s = 404) := by
  have hr0 : route_int (("0").data) = some 0 := by decide
  have hv0 : InputValidator.validate_document_id (.int 0) = .error .notPositive := by decide
  refine ⟨?_, ?_, ?_, ?_, ?_⟩
  · intro x n
    cases hp : pyIntOf x with
    | none => simp [InputValidator.validate_document_id, hp]
    | some m =>
      by_cases hm : m ≤ 0
      · simp only [InputValidator.validate_document_id, hp, if_pos hm]
        constructor
        · intro h
          simp at h
        · rintro ⟨hmn, hn⟩
          simp at hmn
          omega
      · simp only [InputValidator.validate_document_id, hp, if_neg hm]
        constructor
        · intro h
          simp at h
          subst h
          exact ⟨rfl, by omega⟩
        · rintro ⟨hmn, hn⟩
          simp at hmn
          subst hmn
          rfl
  · intro x n hp hn
    simp [InputValidator.validate_document_id, hp, hn]
  · intro x hp
    simp [InputValidator.validate_document_id, hp]
  · intro st env
    refine ⟨?_, ?_, ?_, ?_⟩
    · simp [download_http, hr0, download_document, hv0]
    · simp [delete_http, hr0, delete_document, hv0]
    · simp [analyze_http, hr0, analyze_document, hv0]
    · simp [analysis_http, hr0, get_document_analysis, hv0]
  · intro st env s hs
    exact ⟨by simp [download_http, hs], by simp [delete_http, hs],
      by simp [analyze_http, hs], by simp [analysis_http, hs]⟩

/-- C10, witness: the amended theorem evaluated at the string `-7` (validator
level) and at the id segment `0` on the download endpoint. -/
theorem C10_amended_witness :
    InputValidator.validate_document_id (.str (("-7").data)) = .error .notPositive ∧
    download_http st0 (("0").data) = 400 :=
  ⟨C10_id_validation_amended.2.1 (.str (("-7").data)) (-7) (by decide) (by decide),
   (C10_id_validation_amended.2.2.2.1 st0 env0).1⟩

/-- C7: a freshly created Document starts `pending`; an analyzer run saves
`processing` first and then exactly one terminal status: `completed` with the
result stored and `analyzed_at` set when extraction and the API call succeed,
or `failed` with the error message embedded in `analysis_result` on any
exception; and an analyze request made while the stored status is already
`processing` answers 202 already-in-progress without invoking the analyzer
and without changing the state. -/
theorem C7_analysis_lifecycle :
    (∀ st fn fp sz,
      ((DatabaseService.create_document_record st fn fp sz).2).analysis_status = .pending) ∧
    (∀ env d now d2 trace res,
      DocumentAnalyzer.analyze_document env d now = (d2, trace, res) →
      trace = [.processing, d2.analysis_status] ∧
      (d2.analysis_status = .completed ∨ d2.analysis_status = .failed) ∧
      (∀ r, res = .ok r → d2.analysis_status = .completed ∧ d2.analysis_result = some r ∧
        d2.analyzed_at = some now) ∧
      (∀ e, res = .error e → d2.analysis_status = .failed ∧
        d2.analysis_result = some ((("Analysis failed: ").data) ++ e))) ∧
    (∀ env st i d, 0 < i → DatabaseService.get_document_by_id st.db i = some d →
      DocumentStorageService.file_exists st.fs d.filepath = true →
      env.available = true → d.analysis_status = .processing →
      analyze_document env st i = (st, .inProgress202, false)) := by
  refine ⟨?_, ?_, ?_⟩
  · intro st fn fp sz
    rfl
  · intro env d now d2 trace res h
    cases hex : env.extract with
    | error e =>
      simp only [DocumentAnalyzer.analyze_document, hex, Prod.mk.injEq] at h
      obtain ⟨rfl, rfl, rfl⟩ := h
      refine ⟨by simp, Or.inr rfl, ?_, ?_⟩
      · intro r hr
        simp at hr
      · intro e2 he
        simp at he
        subst he
        exact ⟨rfl, rfl⟩
    | ok text =>
      by_cases htext : text = []
      · subst htext
        simp only [DocumentAnalyzer.analyze_document, hex, eq_self_iff_true, ite_true,
          Prod.mk.injEq] at h
        obtain ⟨rfl, rfl, rfl⟩ := h
        refine ⟨by simp, Or.inr rfl, ?_, ?_⟩
        · intro r hr
          simp at hr
        · intro e2 he
          simp at he
          subst he
          exact ⟨rfl, rfl⟩
      · cases hapi : env.api with
        | error e =>
          simp only [DocumentAnalyzer.analyze_document, hex, htext, ite_false, hapi,
            Prod.mk.injEq] at h
          obtain ⟨rfl, rfl, rfl⟩ := h
          refine ⟨by simp, Or.inr rfl, ?_, ?_⟩
          · intro r hr
            simp at hr
          · intro e2 he
            simp at he
            subst he
            exact ⟨rfl, rfl⟩
        | ok r =>
          simp only [DocumentAnalyzer.analyze_document, hex, htext, ite_false, hapi,
            Prod.mk.injEq] at h
          obtain ⟨rfl, rfl, rfl⟩ := h
          refine ⟨by simp, Or.inl rfl, ?_, ?_⟩
          · intro r2 hr
            simp at hr
            subst hr
            exact ⟨rfl, rfl, rfl⟩
          · intro e2 he
            simp at he
  · intro env st i d hi hd hfile havail hproc
    simp [analyze_document, validate_int_pos hi, hd, hfile, havail, hproc]

/-- C7, witness: the lifecycle theorem evaluated on the sample state whose
document is marked processing; the second request answers 202 without
invoking the analyzer. -/
theorem C7_witness :
    analyze_document env0 st1p 1 = (st1p, .inProgress202, false) :=
  C7_analysis_lifecycle.2.2 env0 st1p 1 doc1p (by decide) (by decide) (by decide) rfl rfl

theorem pairwise_imp_mem {α : Type} {R S : α → α → Prop} :
    ∀ {l : List α}, (∀ a b, a ∈ l → b ∈ l → R a b → S a b) → l.Pairwise R → l.Pairwise S := by
  intro l
  induction l with
  | nil => intro _ _; exact List.Pairwise.nil
  | cons x xs ih =>
    intro H hp
    rw [List.pairwise_cons] at hp ⊢
    refine ⟨fun b hb => H x b (by simp) (by simp [hb]) (hp.1 b hb), ih ?_ hp.2⟩
    intro a b ha hb hr
    exact H a b (by simp [ha]) (by simp [hb]) hr

theorem validate_int_cases (i : Int) :
    (0 < i ∧ InputValidator.validate_document_id (.int i) = .ok i) ∨
    (i ≤ 0 ∧ InputValidator.validate_document_id (.int i) = .error .notPositive) := by
  by_cases h : i ≤ 0
  · exact Or.inr ⟨h, by simp [InputValidator.validate_document_id, pyIntOf, h]⟩
  · exact Or.inl ⟨by omega, validate_int_pos (by omega)⟩

theorem analyzer_fields (env : AnalyzerEnv) (d : Document) (now : Nat) :
    ((DocumentAnalyzer.analyze_document env d now).1).filepath = d.filepath ∧
    ((DocumentAnalyzer.analyze_document env d now).1).filesize = d.filesize ∧
    ((DocumentAnalyzer.analyze_document env d now).1).id = d.id := by
  cases hex : env.extract with
  | error e => simp [DocumentAnalyzer.analyze_document, hex]
  | ok text =>
    by_cases htext : text = []
    · subst htext
      simp [DocumentAnalyzer.analyze_document, hex]
    · cases hapi : env.api with
      | error e => simp [DocumentAnalyzer.analyze_document, hex, htext, hapi]
      | ok r => simp [DocumentAnalyzer.analyze_document, hex, htext, hapi]

theorem goodState_delete_row (st : SysState) (d : Document) (hdmem : d ∈ st.db)
    (hg : goodState st) (fs2 : FS)
    (hpres : ∀ q, q ≠ d.filepath → fsLookup fs2 q = fsLookup st.fs q) :
    goodState { st with
      fs := fs2
      db := st.db.filter (fun x => decide (x.id ≠ d.id)) } := by
  obtain ⟨hsize, hpaths, hids, hlt⟩ := hg
  have hsymm : Symmetric (fun a b : Document => a.filepath ≠ b.filepath) :=
    fun a b h => Ne.symm h
  refine ⟨?_, ?_, ?_, ?_⟩
  · intro x hx
    have hmem := List.mem_filter.mp hx
    have hxdb : x ∈ st.db := hmem.1
    have hxid : x.id ≠ d.id := by simpa using hmem.2
    have hxd : x ≠ d := fun h => hxid (by rw [h])
    have hpath : x.filepath ≠ d.filepath :=
      (List.Pairwise.forall hsymm hpaths) hxdb hdmem hxd
    obtain ⟨b, hb, hlen⟩ := hsize x hxdb
    exact ⟨b, by rw [hpres _ hpath]; exact hb, hlen⟩
  · exact List.Pairwise.sublist (List.filter_sublist st.db) hpaths
  · exact List.Pairwise.sublist (List.filter_sublist st.db) hids
  · intro x hx
    exact hlt x (List.mem_filter.mp hx).1

theorem goodState_save (st : SysState) (d d2 : Document) (hdmem : d ∈ st.db)
    (hg : goodState st) (hfp : d2.filepath = d.filepath) (hfs : d2.filesize = d.filesize)
    (hid : d2.id = d.id) :
    goodState { st with db := saveDoc st.db d2 } := by
  obtain ⟨hsize, hpaths, hids, hlt⟩ := hg
  have hsymmid : Symmetric (fun a b : Document => a.id ≠ b.id) := fun a b h => Ne.symm h
  have hxd : ∀ x ∈ st.db, x.id = d.id → x = d := by
    intro x hx hxid
    by_contra hne
    exact (List.Pairwise.forall hsymmid hids) hx hdmem hne hxid
  have hgfp : ∀ x ∈ st.db, (if x.id = d2.id then d2 else x).filepath = x.filepath := by
    intro x hx
    by_cases h : x.id = d2.id
    · rw [if_pos h, hfp, hxd x hx (by rw [h, hid])]
    · rw [if_neg h]
  have hgid : ∀ x ∈ st.db, (if x.id = d2.id then d2 else x).id = x.id := by
    intro x hx
    by_cases h : x.id = d2.id
    · rw [if_pos h, hid, h, hid]
    · rw [if_neg h]
  refine ⟨?_, ?_, ?_, ?_⟩
  · intro x hx
    simp only [saveDoc] at hx
    obtain ⟨y, hy, rfl⟩ := List.mem_map.mp hx
    by_cases hyid : y.id = d2.id
    · have hyd : y = d := hxd y hy (by rw [hyid, hid])
      obtain ⟨b, hb, hlen⟩ := hsize d hdmem
      rw [if_pos hyid]
      exact ⟨b, by rw [hfp]; exact hb, by rw [hfs]; exact hlen⟩
    · rw [if_neg hyid]
      exact hsize y hy
  · simp only [saveDoc]
    rw [List.pairwise_map]
    apply pairwise_imp_mem ?_ hpaths
    intro a b ha hb hr
    rw [hgfp a ha, hgfp b hb]
    exact hr
  · simp only [saveDoc]
    rw [List.pairwise_map]
    apply pairwise_imp_mem ?_ hids
    intro a b ha hb hr
    rw [hgid a ha, hgid b hb]
    exact hr
  · intro x hx
    simp only [saveDoc] at hx
    obtain ⟨y, hy, rfl⟩ := List.mem_map.mp hx
    by_cases h : y.id = d2.id
    · rw [if_pos h]
      rw [hid]
      exact hlt d hdmem
    · rw [if_neg h]
      exact hlt y hy

theorem step_preserves_goodState (st st2 : SysState) (hg : goodState st)
    (hstep : Step st st2) : goodState st2 := by
  cases hstep with
  | upload st path f fresh =>
    cases hv : DocumentValidator.validate_uploaded_file f with
    | error e =>
      rw [upload_reject_of_invalid hv]
      exact hg
    | ok u =>
      cases u
      rw [upload_valid_eq st path f hv]
      by_cases hpdf : f.content.take 4 = pdfMagic
      · rw [if_pos hpdf]
        obtain ⟨hsize, hpaths, hids, hlt⟩ := hg
        have hne : ∀ x ∈ st.db, path ≠ x.filepath := by
          intro x hx hpx
          obtain ⟨b, hb, _⟩ := hsize x hx
          rw [← hpx, fresh] at hb
          cases hb
        refine ⟨?_, ?_, ?_, ?_⟩
        · intro x hx
          rcases List.mem_cons.mp hx with hx1 | hx2
          · subst hx1
            exact ⟨f.content, fsLookup_write_self st.fs path f.content, rfl⟩
          · obtain ⟨b, hb, hlen⟩ := hsize x hx2
            exact ⟨b,
              by rw [fsLookup_write_ne st.fs path x.filepath f.content (hne x hx2)]; exact hb,
              hlen⟩
        · rw [List.pairwise_cons]
          exact ⟨fun x hx => hne x hx, hpaths⟩
        · rw [List.pairwise_cons]
          refine ⟨fun x hx => ?_, hids⟩
          have := hlt x hx
          simp only [mkDoc]
          omega
        · intro x hx
          rcases List.mem_cons.mp hx with hx1 | hx2
          · subst hx1
            simp [mkDoc]
          · have := hlt x hx2
            show x.id < st.nextId + 1
            omega
      · rw [if_neg hpdf]
        have hrm : fsRemove (fsWrite st.fs path f.content) path = st.fs := by
          simp only [fsWrite, fsRemove, if_pos rfl]
          exact fsRemove_of_lookup_none st.fs path fresh
        rw [hrm]
        exact hg
  | del st i =>
    rcases validate_int_cases i with ⟨hi, hval⟩ | ⟨hi, hval⟩
    · cases hd : DatabaseService.get_document_by_id st.db i with
      | none =>
        simp only [delete_document, hval, hd]
        exact hg
      | some d =>
        rw [delete_document_found st i d hi hd]
        have hdmem : d ∈ st.db :=
          List.mem_of_find?_eq_some (by simpa [DatabaseService.get_document_by_id] using hd)
        apply goodState_delete_row st d hdmem hg
        intro q hq
        simp only [DocumentStorageService.delete_file]
        by_cases hex : DocumentStorageService.file_exists st.fs d.filepath = true
        · rw [if_pos hex]
          exact fsLookup_remove_ne st.fs d.filepath q hq
        · rw [if_neg hex]
    · simp only [delete_document, hval]
      exact hg
  | analyze env st i =>
    rcases validate_int_cases i with ⟨hi, hval⟩ | ⟨hi, hval⟩
    · cases hd : DatabaseService.get_document_by_id st.db i with
      | none =>
        simp only [analyze_document, hval, hd]
        exact hg
      | some d =>
        by_cases hfb : DocumentStorageService.file_exists st.fs d.filepath = false
        · simp only [analyze_document, hval, hd]
          rw [if_pos hfb]
          exact hg
        · by_cases hav : env.available = false
          · simp only [analyze_document, hval, hd]
            rw [if_neg hfb, if_pos hav]
            exact hg
          · by_cases hproc : d.analysis_status = .processing
            · simp only [analyze_document, hval, hd]
              rw [if_neg hfb, if_neg hav, if_pos hproc]
              exact hg
            · have hdmem : d ∈ st.db :=
                List.mem_of_find?_eq_some
                  (by simpa [DatabaseService.get_document_by_id] using hd)
              rcases htriple : DocumentAnalyzer.analyze_document env d st.now with
                ⟨d2, trace, res⟩
              have hf2 := analyzer_fields env d st.now
              rw [htriple] at hf2
              simp only [analyze_document, hval, hd, htriple]
              rw [if_neg hfb, if_neg hav, if_neg hproc]
              cases res with
              | ok r => exact goodState_save st d d2 hdmem hg hf2.1 hf2.2.1 hf2.2.2
              | error e => exact goodState_save st d d2 hdmem hg hf2.1 hf2.2.1 hf2.2.2
    · simp only [analyze_document, hval]
      exact hg
  | recordDelete st i =>
    cases hd : DatabaseService.get_document_by_id st.db i with
    | none =>
      simp only [DatabaseService.delete_document_record, hd]
      exact hg
    | some d =>
      have hdmem : d ∈ st.db :=
        List.mem_of_find?_eq_some (by simpa [DatabaseService.get_document_by_id] using hd)
      simp only [DatabaseService.delete_document_record, hd, Document.delete]
      apply goodState_delete_row st d hdmem hg
      intro q hq
      by_cases hcond : d.filepath ≠ [] ∧ DocumentStorageService.file_exists st.fs d.filepath
          = true
      · rw [if_pos hcond]
        exact fsLookup_remove_ne st.fs d.filepath q hq
      · rw [if_neg hcond]
  | tick st t => exact hg

/-- C3: the stored filesize always equals the byte length of the file at the
record's filepath: every state-changing operation preserves the record-file
consistency invariant (so the equality holds for as long as the record
exists), and a successful upload creates its record with the filepath holding
exactly the received bytes and filesize equal to their length (the
actually-written length, which is what `UploadedFile.size` measures, not a
client-declared number). -/
theorem C3_filesize_invariant :
    (∀ st st2, goodState st → Step st st2 → goodState st2) ∧
    (∀ st path f st2 d, fsLookup st.fs path = none →
      upload_document st path f = (st2, .created d) →
      fsLookup st2.fs d.filepath = some f.content ∧ d.filesize = f.content.length) := by
  constructor
  · exact fun st st2 hg hs => step_preserves_goodState st st2 hg hs
  · intro st path f st2 d hfresh hup
    cases hv : DocumentValidator.validate_uploaded_file f with
    | error e =>
      rw [upload_reject_of_invalid hv] at hup
      simp at hup
    | ok u =>
      cases u
      rw [upload_valid_eq st path f hv] at hup
      by_cases hpdf : f.content.take 4 = pdfMagic
      · rw [if_pos hpdf] at hup
        simp only [Prod.mk.injEq, UploadResp.created.injEq] at hup
        obtain ⟨rfl, rfl⟩ := hup
        refine ⟨?_, ?_⟩
        · exact fsLookup_write_self st.fs path f.content
        · rfl
      · rw [if_neg hpdf] at hup
        simp at hup

/-- C3, witness: the invariant is preserved across a concrete successful
upload from the empty state, and the created record matches the written
bytes. -/
theorem C3_witness :
    goodState (upload_document st0 (("u2.pdf").data) samplePdf).1 ∧
    fsLookup (upload_document st0 (("u2.pdf").data) samplePdf).1.fs
      ((mkDoc st0 samplePdf (("u2.pdf").data)).filepath) = some samplePdf.content ∧
    (mkDoc st0 samplePdf (("u2.pdf").data)).filesize = samplePdf.content.length := by
  have hg0 : goodState st0 := by
    refine ⟨?_, ?_, ?_, ?_⟩ <;> simp [st0]
  refine ⟨C3_filesize_invariant.1 st0 _ hg0 (Step.upload st0 (("u2.pdf").data) samplePdf rfl),
    ?_, ?_⟩
  · exact (C3_filesize_invariant.2 st0 (("u2.pdf").data) samplePdf
      (upload_document st0 (("u2.pdf").data) samplePdf).1
      (mkDoc st0 samplePdf (("u2.pdf").data)) rfl (by decide)).1
  · exact (C3_filesize_invariant.2 st0 (("u2.pdf").data) samplePdf
      (upload_document st0 (("u2.pdf").data) samplePdf).1
      (mkDoc st0 samplePdf (("u2.pdf").data)) rfl (by decide)).2
